import Mathlib

/-!
Verification of the core (non-GUI) logic of the ffmpeg front-end repository.

The development shallowly embeds, in Lean, the pure core of the two Python
source variants:

* `FFmpegCommandBuilder.build_command` and its helpers from
  `ffmpeggui.V0.2.py` (the pure command builder: a parameter record to an
  ordered argument vector);
* `HardwareDetector.detect_hardware_acceleration` and
  `detect_hardware_encoders` from `ffmpeggui.V0.2.py`, together with the
  encoder-detection regular expression of the `ffmpeggui.py` variant
  (which lacks the trailing whitespace bound);
* the completion-polling state machine formed by
  `FFmpegGUI.check_completion_status` and `FFmpegGUI.verify_file_stable`
  from `ffmpeggui.py`;
* `FFmpegGUI.decrypt_ncm_fallback` from `ffmpeggui.py`.

Side-effecting boundaries (invoking the external executable, reading file
sizes, writing the decrypted temporary file) are represented by explicit
inputs (an invocation outcome value, a list of sampled sizes, an
`Except`-valued result whose success value is the byte sequence that would
be written).
-/

namespace FfmpegGui

/-! ### Python string primitives -/

/-- Python whitespace class: the characters matched by `\s` in `re` and
split on by `str.split()` for ASCII text. -/
def pyIsSpace (c : Char) : Bool :=
  c = ' ' || c = '\t' || c = '\n' || c = '\r' || c = '\x0b' || c = '\x0c'

/-- Helper for `pySplit`: walks the character list accumulating the current
word (reversed); words are flushed at whitespace and at the end. -/
def pySplitAux : List Char → List Char → List (List Char)
  | [], acc => if acc.isEmpty then [] else [acc.reverse]
  | c :: rest, acc =>
    if pyIsSpace c then
      if acc.isEmpty then pySplitAux rest [] else acc.reverse :: pySplitAux rest []
    else pySplitAux rest (c :: acc)

/-- Python `str.split()` with no separator: split on runs of whitespace,
producing no empty fields. -/
def pySplit (s : String) : List String :=
  (pySplitAux s.data []).map (fun l => String.mk l)

/-- Python `",".join(filters)`. -/
def commaJoin : List String → String
  | [] => ""
  | [x] => x
  | x :: y :: ys => x ++ "," ++ commaJoin (y :: ys)

/-- Substring test, Python `needle in hay`. -/
def hasSub (needle : List Char) : List Char → Bool
  | [] => needle.isEmpty
  | c :: rest => needle.isPrefixOf (c :: rest) || hasSub needle rest

/-- Python `str.lower()` restricted to its ASCII action (the identifiers
searched for are ASCII). -/
def asciiLower (s : String) : String :=
  String.mk (s.data.map Char.toLower)

/-! ### Translation constants

`FFmpegCommandBuilder._t` always reads the `zh_CN` table
(`self.language_manager.get_text("zh_CN", key)`), so each `_t(key)` call in
the builder denotes a fixed string, reproduced here from the `zh_CN`
dictionary of `ffmpeggui.V0.2.py`. -/

def t_original_resolution : String := "原分辨率"
def t_custom_resolution : String := "自定义分辨率"
def t_original_fps : String := "原帧率"
def t_custom_fps : String := "自定义帧率"
def t_custom_sample_rate : String := "自定义采样率"
def t_custom_bitrate : String := "自定义比特率"
def t_high_quality : String := "高质量"
def t_medium_quality : String := "中等"
def t_low_quality : String := "低质量"
def t_hwaccel_none : String := "❌ 无硬件加速"
def t_hwaccel_cuda : String := "🎮 NVIDIA CUDA"
def t_hwaccel_qsv : String := "🔵 Intel Quick Sync"
def t_hwaccel_vaapi : String := "🔴 VA-API"
def t_hwaccel_d3d11va : String := "🟢 Direct3D 11"
def t_hwaccel_videotoolbox : String := "🍎 Apple VideoToolbox"
def t_hwaccel_amf : String := "🟣 AMD AMF"

/-! ### The transcode parameter record

Mirrors the `params` dictionary consumed by
`FFmpegCommandBuilder.build_command`.  A missing dictionary key reads as the
empty string (`params.get(k, "")` / falsy `None`), so absent selections are
represented by `""`; the boolean filter toggles default to `false`. -/

structure Params where
  hwaccel : String := ""
  input_file : String := ""
  output_file : String := ""
  video_codec : String := ""
  audio_codec : String := ""
  resolution : String := ""
  custom_resolution : String := ""
  fps : String := ""
  custom_fps : String := ""
  sample_rate : String := ""
  custom_sample_rate : String := ""
  channels : String := ""
  bitrate : String := ""
  custom_bitrate : String := ""
  crop_enabled : Bool := false
  crop_params : String := "iw:ih:0:0"
  scale_enabled : Bool := false
  rotate_enabled : Bool := false
  rotate_angle : String := "90"
  volume_enabled : Bool := false
  volume_factor : String := "1.0"
  video_quality : String := ""
  custom_args : String := ""
deriving DecidableEq, Repr

/-! ### FFmpegCommandBuilder helpers (ffmpeggui.V0.2.py) -/

/-- Mirrors `FFmpegCommandBuilder._get_hwaccel_internal_name`: maps a display name
back to the internal accelerator identifier; the dictionary `get` over the
literal mapping is written as an if-chain (the keys are distinct). -/
def get_hwaccel_internal_name (display : String) : Option String :=
  if display = t_hwaccel_none ∨ display = "" then none
  else if display = t_hwaccel_cuda then some "cuda"
  else if display = t_hwaccel_qsv then some "qsv"
  else if display = t_hwaccel_vaapi then some "vaapi"
  else if display = t_hwaccel_d3d11va then some "d3d11va"
  else if display = t_hwaccel_videotoolbox then some "videotoolbox"
  else if display = t_hwaccel_amf then some "amf"
  else none

/-- Mirrors `FFmpegCommandBuilder._get_resolution`. -/
def get_resolution (p : Params) : Option String :=
  if p.resolution = t_custom_resolution ∧ p.custom_resolution ≠ "" then
    some p.custom_resolution
  else if p.resolution ≠ t_original_resolution ∧ p.resolution ≠ t_custom_resolution then
    some p.resolution
  else none

/-- Mirrors `FFmpegCommandBuilder._get_fps`. -/
def get_fps (p : Params) : Option String :=
  if p.fps = t_custom_fps ∧ p.custom_fps ≠ "" then
    some p.custom_fps
  else if p.fps ≠ t_original_fps ∧ p.fps ≠ t_custom_fps then
    some p.fps
  else none

/-- Mirrors `FFmpegCommandBuilder._get_sample_rate`.  Note: unlike resolution and
frame rate there is no dedicated keep-original sentinel; any non-custom
selection is returned verbatim (the empty selection is then discarded by
the truthiness test at the call site). -/
def get_sample_rate (p : Params) : Option String :=
  if p.sample_rate = t_custom_sample_rate ∧ p.custom_sample_rate ≠ "" then
    some p.custom_sample_rate
  else if p.sample_rate ≠ t_custom_sample_rate then
    some p.sample_rate
  else none

/-- Mirrors `FFmpegCommandBuilder._get_bitrate` (same shape as `_get_sample_rate`). -/
def get_bitrate (p : Params) : Option String :=
  if p.bitrate = t_custom_bitrate ∧ p.custom_bitrate ≠ "" then
    some p.custom_bitrate
  else if p.bitrate ≠ t_custom_bitrate then
    some p.bitrate
  else none

/-- Mirrors `FFmpegCommandBuilder._build_video_filters`: crop, then scale (which
re-uses `_get_resolution`, under the same truthiness test), then rotate. -/
def build_video_filters (p : Params) : List String :=
  (if p.crop_enabled then ["crop=" ++ p.crop_params] else []) ++
  (if p.scale_enabled then
    match get_resolution p with
    | some r => if r = "" then [] else ["scale=" ++ r.replace "x" ":"]
    | none => []
  else []) ++
  (if p.rotate_enabled then ["transpose=" ++ p.rotate_angle] else [])

/-- Mirrors `FFmpegCommandBuilder._build_audio_filters`: only the volume filter. -/
def build_audio_filters (p : Params) : List String :=
  if p.volume_enabled then ["volume=" ++ p.volume_factor] else []

/-- Mirrors `FFmpegCommandBuilder._get_quality_params`. -/
def get_quality_params (p : Params) : List String :=
  if p.video_quality = t_high_quality then ["-crf", "18", "-preset", "slow"]
  else if p.video_quality = t_medium_quality then ["-crf", "23", "-preset", "medium"]
  else if p.video_quality = t_low_quality then ["-crf", "28", "-preset", "fast"]
  else []

/-- Emission of an optional flag whose value went through the Python walrus
truthiness test `if v := helper(params): cmd.extend([flag, v])` — `None`
and the empty string are both falsy. -/
def optFlag (flag : String) (v : Option String) : List String :=
  match v with
  | some s => if s = "" then [] else [flag, s]
  | none => []

/-- Mirrors `FFmpegCommandBuilder.build_command` of `ffmpeggui.V0.2.py`, line by
line: the `cmd` accumulator starts at `["ffmpeg"]` and each guarded
`cmd.extend(...)` of the source appears as the appending of the guarded
group (the untaken guard contributes the empty list); the Python truthiness
guards on optional strings are `optFlag`, those on lists are the
`isEmpty` tests.  The vector ends with the output path. -/
def build_command (p : Params) : List String :=
  let cmd := ["ffmpeg"]
  let cmd := cmd ++ optFlag "-hwaccel" (get_hwaccel_internal_name p.hwaccel)
  let cmd := cmd ++ ["-i", p.input_file]
  let cmd := cmd ++ ["-y"]
  let cmd := cmd ++
    (if p.video_codec ≠ "" ∧ p.video_codec ≠ "copy" then ["-c:v", p.video_codec] else [])
  let cmd := cmd ++ optFlag "-s" (get_resolution p)
  let cmd := cmd ++ optFlag "-r" (get_fps p)
  let cmd := cmd ++ (if p.audio_codec ≠ "" then ["-c:a", p.audio_codec] else [])
  let cmd := cmd ++ optFlag "-ar" (get_sample_rate p)
  let cmd := cmd ++ (if p.channels ≠ "" then ["-ac", p.channels] else [])
  let cmd := cmd ++ optFlag "-b:a" (get_bitrate p)
  let vf_filters := build_video_filters p
  let cmd := cmd ++ (if vf_filters.isEmpty then [] else ["-vf", commaJoin vf_filters])
  let af_filters := build_audio_filters p
  let cmd := cmd ++ (if af_filters.isEmpty then [] else ["-af", commaJoin af_filters])
  let quality_params := get_quality_params p
  let cmd := cmd ++ (if quality_params.isEmpty then [] else quality_params)
  let cmd := cmd ++ (if p.custom_args ≠ "" then pySplit p.custom_args else [])
  cmd ++ [p.output_file]

/-! ### Flag groups and the decomposition of the built command -/

/-- Hardware-accelerator flag group. -/
def hwaccelGroup (p : Params) : List String :=
  optFlag "-hwaccel" (get_hwaccel_internal_name p.hwaccel)

/-- Video-codec flag group (empty for the passthrough sentinel `copy` and
for the empty selection). -/
def videoCodecGroup (p : Params) : List String :=
  if p.video_codec ≠ "" ∧ p.video_codec ≠ "copy" then ["-c:v", p.video_codec] else []

/-- Resolution flag group. -/
def resolutionGroup (p : Params) : List String :=
  optFlag "-s" (get_resolution p)

/-- Frame-rate flag group. -/
def fpsGroup (p : Params) : List String :=
  optFlag "-r" (get_fps p)

/-- Audio-codec flag group. -/
def audioCodecGroup (p : Params) : List String :=
  if p.audio_codec ≠ "" then ["-c:a", p.audio_codec] else []

/-- Sample-rate flag group. -/
def sampleRateGroup (p : Params) : List String :=
  optFlag "-ar" (get_sample_rate p)

/-- Channel-count flag group. -/
def channelsGroup (p : Params) : List String :=
  if p.channels ≠ "" then ["-ac", p.channels] else []

/-- Audio-bitrate flag group. -/
def bitrateGroup (p : Params) : List String :=
  optFlag "-b:a" (get_bitrate p)

/-- Video filter-chain group: one comma-joined `-vf` argument when any
filter is active. -/
def vfGroup (p : Params) : List String :=
  if (build_video_filters p).isEmpty then [] else ["-vf", commaJoin (build_video_filters p)]

/-- Audio filter-chain group. -/
def afGroup (p : Params) : List String :=
  if (build_audio_filters p).isEmpty then [] else ["-af", commaJoin (build_audio_filters p)]

/-- Quality-tier flag group. -/
def qualityGroup (p : Params) : List String :=
  if (get_quality_params p).isEmpty then [] else get_quality_params p

/-- Whitespace-split extra-argument group. -/
def extraArgsGroup (p : Params) : List String :=
  if p.custom_args ≠ "" then pySplit p.custom_args else []

/-! ### Capability detection (HardwareDetector, ffmpeggui.V0.2.py)

The external invocation `subprocess.run(["ffmpeg", flag], ...)` is
represented by its observable outcome: either the call raised
(executable missing, timeout, any other exception) or it finished with an
exit code and captured standard output. -/

/-- Outcome of invoking the external executable. -/
inductive ExecResult where
  | failure : ExecResult
  | finished (returncode : Int) (stdout : String) : ExecResult
deriving DecidableEq, Repr

/-- True when the invocation did not finish with exit code `0`
(`subprocess` raised, timed out, or the process exited abnormally). -/
def execFailed : ExecResult → Bool
  | .failure => true
  | .finished rc _ => rc != 0

/-- Detection entry: display name and support verdict. -/
structure HwEntry where
  name : String
  supported : Bool
deriving DecidableEq, Repr

/-- The `hwaccels_to_check` dictionary (insertion order preserved). -/
def hwaccels_to_check : List (String × String) :=
  [("cuda", "NVIDIA CUDA"), ("qsv", "Intel Quick Sync"), ("vaapi", "VA-API"),
   ("d3d11va", "Direct3D 11"), ("videotoolbox", "Apple VideoToolbox"), ("amf", "AMD AMF")]

/-- The `encoder_mapping` dictionary (insertion order preserved). -/
def encoder_mapping : List (String × String) :=
  [("h264_nvenc", "NVIDIA H.264"), ("hevc_nvenc", "NVIDIA H.265"),
   ("h264_qsv", "Intel H.264"), ("hevc_qsv", "Intel H.265"),
   ("h264_amf", "AMD H.264"), ("hevc_amf", "AMD H.265"),
   ("h264_vaapi", "VA-API H.264"), ("hevc_vaapi", "VA-API H.265"),
   ("h264_videotoolbox", "VideoToolbox H.264"), ("hevc_videotoolbox", "VideoToolbox H.265")]

/-- Mirrors `_mark_all_unsupported` / `_mark_all_encoders_unsupported`. -/
def markAllUnsupported (l : List (String × String)) : List (String × HwEntry) :=
  l.map (fun kv => (kv.1, ⟨kv.2, false⟩))

/-- Mirrors `HardwareDetector.detect_hardware_acceleration`: on a clean exit, each
accelerator is supported iff its identifier occurs (case-insensitively) in
the captured output; any non-zero exit or exception marks every entry
unsupported. -/
def detect_hardware_acceleration (r : ExecResult) : List (String × HwEntry) :=
  match r with
  | .finished rc out =>
    if rc = 0 then
      hwaccels_to_check.map
        (fun kv => (kv.1, ⟨kv.2, hasSub kv.1.data (asciiLower out).data⟩))
    else markAllUnsupported hwaccels_to_check
  | .failure => markAllUnsupported hwaccels_to_check

/-! #### The encoder-listing regular expression

`ffmpeggui.V0.2.py` tests `re.search(rf"^\s*V\S*\s+{encoder}\s", output,
re.MULTILINE)`; the `ffmpeggui.py` variant uses the same pattern WITHOUT
the final `\s`.  With `re.MULTILINE`, `^` anchors the attempt at the start
of the string or right after a newline; from such a position the pattern is
deterministic (each starred class is followed by a character it cannot
match, so only the maximal munch can succeed). -/

/-- Whole-token occurrence at the head of `s`: `enc` is a prefix of `s` and
the character right after it is whitespace — the `{encoder}\s` tail of the
V0.2 pattern. -/
def tokenStartsAt (enc : List Char) (s : List Char) : Bool :=
  enc.isPrefixOf s &&
    (match s.drop enc.length with
     | c :: _ => pyIsSpace c
     | [] => false)

/-- Match of `\s*V\S*\s+{enc}\s` starting exactly at the head of `s`. -/
def matchAtV02 (enc : List Char) (s : List Char) : Bool :=
  match s.dropWhile pyIsSpace with
  | [] => false
  | c :: rest =>
    c = 'V' &&
      (let r2 := rest.dropWhile (fun d => !pyIsSpace d)
       !(r2.takeWhile pyIsSpace).isEmpty && tokenStartsAt enc (r2.dropWhile pyIsSpace))

/-- Match of `\s*V\S*\s+{enc}` (no trailing `\s`, the `ffmpeggui.py`
variant) starting exactly at the head of `s`. -/
def matchAtMain (enc : List Char) (s : List Char) : Bool :=
  match s.dropWhile pyIsSpace with
  | [] => false
  | c :: rest =>
    c = 'V' &&
      (let r2 := rest.dropWhile (fun d => !pyIsSpace d)
       !(r2.takeWhile pyIsSpace).isEmpty && enc.isPrefixOf (r2.dropWhile pyIsSpace))

/-- All suffixes of `s` that begin right after a newline character — the
positions (other than the start) at which `re.MULTILINE` anchors `^`. -/
def lineStarts : List Char → List (List Char)
  | [] => []
  | c :: rest => if c = '\n' then rest :: lineStarts rest else lineStarts rest

/-- Semantics of `re.search` of a `^`-anchored pattern under `re.MULTILINE`: try the
start of the string and every position following a newline. -/
def searchMulti (m : List Char → Bool) (s : List Char) : Bool :=
  m s || (lineStarts s).any m

/-- Encoder-listing probe of `ffmpeggui.V0.2.py`. -/
def encoderSearchV02 (enc : String) (out : String) : Bool :=
  searchMulti (matchAtV02 enc.data) out.data

/-- Encoder-listing probe of `ffmpeggui.py` (no trailing whitespace bound). -/
def encoderSearchMain (enc : String) (out : String) : Bool :=
  searchMulti (matchAtMain enc.data) out.data

/-- Mirrors `HardwareDetector.detect_hardware_encoders` (`ffmpeggui.V0.2.py`). -/
def detect_hardware_encoders (r : ExecResult) : List (String × HwEntry) :=
  match r with
  | .finished rc out =>
    if rc = 0 then
      encoder_mapping.map (fun kv => (kv.1, ⟨kv.2, encoderSearchV02 kv.1 out⟩))
    else markAllUnsupported encoder_mapping
  | .failure => markAllUnsupported encoder_mapping

/-- Mirrors `FFmpegGUI.detect_hardware_encoders` (`ffmpeggui.py`): same structure,
but `subprocess.run(..., check=True)` turns a non-zero exit into an
exception, and the matcher lacks the trailing whitespace bound. -/
def detect_hardware_encoders_main (r : ExecResult) : List (String × HwEntry) :=
  match r with
  | .finished rc out =>
    if rc = 0 then
      encoder_mapping.map (fun kv => (kv.1, ⟨kv.2, encoderSearchMain kv.1 out⟩))
    else markAllUnsupported encoder_mapping
  | .failure => markAllUnsupported encoder_mapping

/-! ### Completion polling (ffmpeggui.py)

`check_completion_status` reads the output-file size and schedules
`verify_file_stable` with it as the baseline; `verify_file_stable` compares
the next sample with the baseline, incrementing `progress_check_count` on
equality (declaring completion at 2) and resetting the counter and
re-baselining through `check_completion_status` on any change.  One sampled
size is consumed per scheduled poll; the phase starts at
`check_completion_status` with `progress_check_count = 0`.  (The
file-not-yet-present branch of `check_completion_status`, which re-polls
without consuming a size, is not reachable in the scenarios below, where
every sample is the size of an existing file.) -/

/-- Poll-loop state: which callback runs next, with the live
`progress_check_count` (and, for `verify_file_stable`, the baseline
`previous_size`). -/
inductive PollState where
  | checking (count : ℕ) : PollState
  | verifying (count : ℕ) (prev : ℕ) : PollState
  | succeeded : PollState
deriving DecidableEq, Repr

/-- One poll: consume the sampled size in the current callback. -/
def pollStep : PollState → ℕ → PollState
  | .checking c, size => .verifying c size
  | .verifying c prev, size =>
    if size = prev then
      if c + 1 ≥ 2 then .succeeded else .verifying (c + 1) size
    else .checking 0
  | .succeeded, _ => .succeeded

/-- Run the poll loop over a sequence of sampled sizes. -/
def pollRun (st : PollState) (sizes : List ℕ) : PollState :=
  sizes.foldl pollStep st

/-! ### NCM fallback decryption (FFmpegGUI.decrypt_ncm_fallback)

The file is a byte list; the result is either the error message of the
raised exception or the byte sequence that the function writes to the
uniquely-named temporary file (the only write the function performs, and
it happens after all validation passed).  An `Except.error` result
therefore also means that no output file was created. -/

/-- The 10-byte NCM container signature `b"CTENFDAM\x00\x00"`. -/
def ncmSignature : List ℕ :=
  [0x43, 0x54, 0x45, 0x4E, 0x46, 0x44, 0x41, 0x4D, 0x00, 0x00]

/-- Semantics of `struct.unpack("<I", ...)` on the 4 bytes at `off`: little-endian
32-bit read. -/
def unpackLE32 (data : List ℕ) (off : ℕ) : ℕ :=
  data.getD off 0 + 256 * data.getD (off + 1) 0 +
    65536 * data.getD (off + 2) 0 + 16777216 * data.getD (off + 3) 0

/-- Value of `hashlib.md5(b"hzHRAmso5kInbaxW").digest()` — the fixed XOR key derived
from the hard-coded core key (the digest bytes of the external `hashlib`
call, `777709f7afdc2d5e769093eb69fea4a2`). -/
def coreKeyMd5 : List ℕ :=
  [119, 119, 9, 247, 175, 220, 45, 94, 118, 144, 147, 235, 105, 254, 164, 162]

/-- Byte-wise XOR of the payload against the cycled 16-byte key:
`encrypted_data[i] ^ key[i % len(key)]`. -/
def xorWithKey (payload : List ℕ) : List ℕ :=
  (List.range payload.length).map
    (fun i => payload.getD i 0 ^^^ coreKeyMd5.getD (i % 16) 0)

/-- Body of `decrypt_ncm_fallback` up to the write: signature check, then
the length-prefixed key block, metadata block and optional cover-image
block are walked in order, each guarded by a length check; the remaining
payload must be non-empty and is XOR-decrypted. -/
def decryptCore (data : List ℕ) : Except String (List ℕ) :=
  if data.length < 10 ∨ data.take 10 ≠ ncmSignature then
    .error "不是有效的NCM文件"
  else
    let offset := 10
    if data.length < offset + 4 then .error "文件格式错误"
    else
      let key_length := unpackLE32 data offset
      let offset := offset + 4
      if data.length < offset + key_length then .error "密钥数据不完整"
      else
        let offset := offset + key_length
        if data.length < offset + 4 then .error "元数据长度错误"
        else
          let meta_length := unpackLE32 data offset
          let offset := offset + 4
          if data.length < offset + meta_length then .error "元数据不完整"
          else
            let offset := offset + meta_length
            if data.length < offset + 4 then .error "封面数据长度错误"
            else
              let image_size := unpackLE32 data offset
              let offset := offset + 4
              if 0 < image_size ∧ data.length < offset + image_size then
                .error "封面数据不完整"
              else
                let offset := offset + image_size
                let encrypted := data.drop offset
                if encrypted.isEmpty then .error "没有找到加密的音乐数据"
                else .ok (xorWithKey encrypted)

/-- Mirrors `FFmpegGUI.decrypt_ncm_fallback`: the surrounding `except` re-raises
any failure with a friendlier message; on success the decrypted bytes are
written to the fresh temporary file (returned here as the `.ok` value). -/
def decrypt_ncm_fallback (data : List ℕ) : Except String (List ℕ) :=
  match decryptCore data with
  | .error m => .error ("NCM文件解密失败:\n" ++ m)
  | .ok d => .ok d

/-! ### Auxiliary specification-side definitions -/

/-- Scan helper for `tokenOccurs`: `prev` is the character immediately
before the current position. -/
def tokAux (enc : List Char) : Char → List Char → Bool
  | _, [] => false
  | prev, c :: rest =>
    (pyIsSpace prev && tokenStartsAt enc (c :: rest)) || tokAux enc c rest

/-- Whole-token occurrence: `enc` appears somewhere in the string with a
whitespace character immediately before it and immediately after it. -/
def tokenOccurs (enc : List Char) : List Char → Bool
  | [] => false
  | c :: rest => tokAux enc c rest

/-- All the request fields whose verbatim value can land in the argument
vector differ from `tok`, and no whitespace-split extra argument equals
`tok`.  Under this side condition, `tok` can only enter the built command
as a flag token emitted by the builder itself. -/
def avoidsToken (tok : String) (p : Params) : Bool :=
  (p.input_file != tok) && (p.output_file != tok) &&
  (p.video_codec != tok) && (p.audio_codec != tok) && (p.channels != tok) &&
  (get_resolution p != some tok) && (get_fps p != some tok) &&
  (get_sample_rate p != some tok) && (get_bitrate p != some tok) &&
  (pySplit p.custom_args).all (fun a => a != tok)

/-- The tokens the builder can emit in positions other than a field value,
an extra argument, a filter chain, or one of the flags `-s`, `-r`, `-ar`,
`-b:a`, `-c:v` singled out by the stated properties. -/
def builderFixedTokens : List String :=
  ["ffmpeg", "-hwaccel", "cuda", "qsv", "vaapi", "d3d11va", "videotoolbox", "amf",
   "-i", "-y", "-c:a", "-ac", "-vf", "-af",
   "-crf", "18", "-preset", "slow", "23", "medium", "28", "fast"]

/-- The request of the end-to-end example of the specification:
input `a.mov`, output `a.mp4`, video codec `libx264`, resolution at the
keep-original sentinel, quality tier high; every other selection empty
(the empty hardware profile contributes no accelerator selection). -/
def exampleRequest : Params :=
  { input_file := "a.mov"
    output_file := "a.mp4"
    video_codec := "libx264"
    resolution := t_original_resolution
    video_quality := t_high_quality }

/-- A request whose resolution selection is the keep-original sentinel but
whose free-form extra arguments contain the token `-s`. -/
def resolutionKeepWithExtraS : Params :=
  { input_file := "a.mov"
    output_file := "a.mp4"
    resolution := t_original_resolution
    custom_args := "-s 640x480" }

/-- A request with passthrough video codec whose free-form extra arguments
contain the token `-c:v`. -/
def copyCodecWithExtraCv : Params :=
  { input_file := "a.mov"
    output_file := "a.mp4"
    video_codec := "copy"
    custom_args := "-c:v libx264" }

/-- An encoder listing whose only identifier is `h264_qsvx`, of which the
probed identifier `h264_qsv` is a proper prefix. -/
def qsvPrefixListing : String := " V..... h264_qsvx  Some hardware encoder\n"

/-- A request in which each of the four settings is at its keep-original
state (resolution at the sentinel, sample rate and bitrate at the empty
selection) or at the custom sentinel with an empty free-text value. -/
def allKeepRequest : Params :=
  { input_file := "in.mp4"
    output_file := "out.mp4"
    resolution := t_original_resolution
    fps := t_custom_fps
    custom_fps := ""
    sample_rate := ""
    bitrate := t_custom_bitrate
    custom_bitrate := "" }

/-- A request with the passthrough video codec and no extra arguments. -/
def passthroughRequest : Params :=
  { input_file := "a.mov"
    output_file := "a.mp4"
    video_codec := "copy" }

/-- A request with the passthrough audio codec and explicit sample-rate
and bitrate selections. -/
def copyAudioRequest : Params :=
  { input_file := "a.mov"
    output_file := "a.mp4"
    audio_codec := "copy"
    sample_rate := "44100"
    bitrate := "128k" }

/-! ## Theorems -/

/-! ### Structure of the built command -/

/-- The built command factors as the fixed-order concatenation of its flag
groups. -/
theorem build_command_decomp (p : Params) :
    build_command p =
      ["ffmpeg"] ++ hwaccelGroup p ++ ["-i", p.input_file] ++ ["-y"] ++
      videoCodecGroup p ++ resolutionGroup p ++ fpsGroup p ++
      audioCodecGroup p ++ sampleRateGroup p ++ channelsGroup p ++
      bitrateGroup p ++ vfGroup p ++ afGroup p ++ qualityGroup p ++
      extraArgsGroup p ++ [p.output_file] := by
  simp only [build_command, hwaccelGroup, videoCodecGroup, resolutionGroup, fpsGroup,
    audioCodecGroup, sampleRateGroup, channelsGroup, bitrateGroup, vfGroup, afGroup,
    qualityGroup, extraArgsGroup, List.append_assoc]

/-- The internal accelerator names are drawn from the fixed six. -/
theorem get_hwaccel_internal_name_mem {d h : String}
    (hh : get_hwaccel_internal_name d = some h) :
    h = "cuda" ∨ h = "qsv" ∨ h = "vaapi" ∨ h = "d3d11va" ∨
      h = "videotoolbox" ∨ h = "amf" := by
  unfold get_hwaccel_internal_name at hh
  split_ifs at hh <;> simp_all

/-- Membership in an optional flag group. -/
theorem mem_optFlag {tok flag : String} {v : Option String}
    (h : tok ∈ optFlag flag v) : tok = flag ∨ v = some tok := by
  cases v with
  | none => simp [optFlag] at h
  | some s =>
    by_cases hs : s = ""
    · simp [optFlag, hs] at h
    · simp only [optFlag, if_neg hs, List.mem_cons, List.mem_singleton,
        List.not_mem_nil, or_false] at h
      rcases h with rfl | rfl
      · exact Or.inl rfl
      · exact Or.inr rfl

/-- Every active video filter begins with the letter of its filter name. -/
theorem build_video_filters_head {p : Params} {f : String}
    (hmem : f ∈ build_video_filters p) :
    f.data.head? = some 'c' ∨ f.data.head? = some 's' ∨ f.data.head? = some 't' := by
  unfold build_video_filters at hmem
  simp only [List.mem_append] at hmem
  rcases hmem with (h | h) | h
  · split at h
    · simp only [List.mem_singleton] at h
      subst h; left; rw [String.data_append]; rfl
    · simp at h
  · split at h
    · split at h
      · split at h
        · simp at h
        · simp only [List.mem_singleton] at h
          subst h; right; left; rw [String.data_append]; rfl
      · simp at h
    · simp at h
  · split at h
    · simp only [List.mem_singleton] at h
      subst h; right; right; rw [String.data_append]; rfl
    · simp at h

/-- The active audio filter begins with the letter v. -/
theorem build_audio_filters_head {p : Params} {f : String}
    (hmem : f ∈ build_audio_filters p) : f.data.head? = some 'v' := by
  unfold build_audio_filters at hmem
  split at hmem
  · simp only [List.mem_singleton] at hmem
    subst hmem; rw [String.data_append]; rfl
  · simp at hmem

/-- The comma-joined filter chain starts with the head character of its
first filter. -/
theorem commaJoin_head {f : String} {c : Char} (hf : f.data.head? = some c) :
    ∀ fs : List String, (commaJoin (f :: fs)).data.head? = some c := by
  intro fs
  cases fs with
  | nil => simpa [commaJoin] using hf
  | cons g gs =>
    have he : commaJoin (f :: g :: gs) = (f ++ ",") ++ commaJoin (g :: gs) := rfl
    rw [he, String.data_append, String.data_append, List.head?_append,
      List.head?_append, hf]
    rfl

/-- A token starting with a dash can sit in the video filter group only as
the flag itself. -/
theorem vfGroup_mem_dash {p : Params} {tok : String} (h : tok ∈ vfGroup p)
    (hdash : tok.data.head? = some '-') : tok = "-vf" := by
  unfold vfGroup at h
  split at h
  · simp at h
  · rename_i hne
    simp only [List.mem_cons, List.mem_singleton, List.not_mem_nil, or_false] at h
    rcases h with h | h
    · exact h
    · exfalso
      obtain ⟨f, fs, hls⟩ : ∃ f fs, build_video_filters p = f :: fs := by
        cases hl : build_video_filters p with
        | nil => rw [hl] at hne; simp at hne
        | cons f fs => exact ⟨f, fs, rfl⟩
      have hf : f ∈ build_video_filters p := by
        rw [hls]; exact List.mem_cons_self _ _
      rw [hls] at h
      rcases build_video_filters_head hf with hc | hc | hc <;>
        rw [h, commaJoin_head hc fs] at hdash <;> simp at hdash

/-- A token starting with a dash can sit in the audio filter group only as
the flag itself. -/
theorem afGroup_mem_dash {p : Params} {tok : String} (h : tok ∈ afGroup p)
    (hdash : tok.data.head? = some '-') : tok = "-af" := by
  unfold afGroup at h
  split at h
  · simp at h
  · rename_i hne
    simp only [List.mem_cons, List.mem_singleton, List.not_mem_nil, or_false] at h
    rcases h with h | h
    · exact h
    · exfalso
      obtain ⟨f, fs, hls⟩ : ∃ f fs, build_audio_filters p = f :: fs := by
        cases hl : build_audio_filters p with
        | nil => rw [hl] at hne; simp at hne
        | cons f fs => exact ⟨f, fs, rfl⟩
      have hf : f ∈ build_audio_filters p := by
        rw [hls]; exact List.mem_cons_self _ _
      rw [hls] at h
      rw [h, commaJoin_head (build_audio_filters_head hf) fs] at hdash
      simp at hdash

/-- Quality-tier tokens come from the three fixed flag pairs. -/
theorem mem_qualityGroup {p : Params} {tok : String} (h : tok ∈ qualityGroup p) :
    tok ∈ (["-crf", "18", "-preset", "slow", "23", "medium", "28", "fast"] : List String) := by
  unfold qualityGroup at h
  split at h
  · simp at h
  · unfold get_quality_params at h
    split_ifs at h with h1 h2 h3
    · simp only [List.mem_cons, List.mem_singleton, List.not_mem_nil, or_false] at h
      rcases h with rfl | rfl | rfl | rfl <;> decide
    · simp only [List.mem_cons, List.mem_singleton, List.not_mem_nil, or_false] at h
      rcases h with rfl | rfl | rfl | rfl <;> decide
    · simp only [List.mem_cons, List.mem_singleton, List.not_mem_nil, or_false] at h
      rcases h with rfl | rfl | rfl | rfl <;> decide
    · simp at h

/-- Where a dash-headed token can occur in the built command when no
request field or extra argument carries it verbatim: either among the
fixed tokens, or as one of the five flags singled out by the stated
properties, in which case its group is non-empty. -/
theorem mem_build_command_flag {p : Params} {tok : String}
    (havoid : avoidsToken tok p = true)
    (hdash : tok.data.head? = some '-')
    (h : tok ∈ build_command p) :
    tok ∈ builderFixedTokens ∨
      (tok = "-s" ∧ resolutionGroup p ≠ []) ∨
      (tok = "-r" ∧ fpsGroup p ≠ []) ∨
      (tok = "-ar" ∧ sampleRateGroup p ≠ []) ∨
      (tok = "-b:a" ∧ bitrateGroup p ≠ []) ∨
      (tok = "-c:v" ∧ videoCodecGroup p ≠ []) := by
  unfold avoidsToken at havoid
  simp only [Bool.and_eq_true, bne_iff_ne, ne_eq, List.all_eq_true] at havoid
  obtain ⟨⟨⟨⟨⟨⟨⟨⟨⟨hin, hout⟩, hvc⟩, hac⟩, hch⟩, hres⟩, hfps⟩, hsr⟩, hbr⟩, hargs⟩ := havoid
  rw [build_command_decomp] at h
  simp only [List.append_assoc, List.mem_append, List.mem_cons, List.mem_singleton,
    List.not_mem_nil, or_false] at h
  rcases h with rfl | h | (rfl | rfl) | rfl | h | h | h | h | h | h | h | h | h | h | h | rfl
  · left; decide
  · rcases mem_optFlag h with rfl | hv
    · left; decide
    · rcases get_hwaccel_internal_name_mem hv with rfl | rfl | rfl | rfl | rfl | rfl <;>
        (left; decide)
  · left; decide
  · exact absurd rfl hin
  · left; decide
  · unfold videoCodecGroup at h
    split at h
    · simp only [List.mem_cons, List.mem_singleton, List.not_mem_nil, or_false] at h
      rcases h with rfl | rfl
      · refine Or.inr (Or.inr (Or.inr (Or.inr (Or.inr ⟨rfl, ?_⟩))))
        unfold videoCodecGroup
        split
        · simp
        · simp_all
      · exact absurd rfl hvc
    · simp at h
  · rcases mem_optFlag h with rfl | hv
    · exact Or.inr (Or.inl ⟨rfl, List.ne_nil_of_mem h⟩)
    · exact absurd hv hres
  · rcases mem_optFlag h with rfl | hv
    · exact Or.inr (Or.inr (Or.inl ⟨rfl, List.ne_nil_of_mem h⟩))
    · exact absurd hv hfps
  · unfold audioCodecGroup at h
    split at h
    · simp only [List.mem_cons, List.mem_singleton, List.not_mem_nil, or_false] at h
      rcases h with rfl | rfl
      · left; decide
      · exact absurd rfl hac
    · simp at h
  · rcases mem_optFlag h with rfl | hv
    · exact Or.inr (Or.inr (Or.inr (Or.inl ⟨rfl, List.ne_nil_of_mem h⟩)))
    · exact absurd hv hsr
  · unfold channelsGroup at h
    split at h
    · simp only [List.mem_cons, List.mem_singleton, List.not_mem_nil, or_false] at h
      rcases h with rfl | rfl
      · left; decide
      · exact absurd rfl hch
    · simp at h
  · rcases mem_optFlag h with rfl | hv
    · exact Or.inr (Or.inr (Or.inr (Or.inr (Or.inl ⟨rfl, List.ne_nil_of_mem h⟩))))
    · exact absurd hv hbr
  · rw [vfGroup_mem_dash h hdash]; left; decide
  · rw [afGroup_mem_dash h hdash]; left; decide
  · left
    have h8 := mem_qualityGroup h
    simp only [List.mem_cons, List.mem_singleton, List.not_mem_nil, or_false] at h8
    rcases h8 with rfl | rfl | rfl | rfl | rfl | rfl | rfl | rfl <;> decide
  · unfold extraArgsGroup at h
    split at h
    · exact absurd rfl (hargs tok h)
    · simp at h
  · exact absurd rfl hout

/-- The resolution group is empty for the keep-original sentinel and for
the custom sentinel with an empty free-text value. -/
theorem resolutionGroup_eq_nil {p : Params}
    (hsel : p.resolution = t_original_resolution ∨
      (p.resolution = t_custom_resolution ∧ p.custom_resolution = "")) :
    resolutionGroup p = [] := by
  have hne : t_original_resolution ≠ t_custom_resolution := by decide
  rcases hsel with h | ⟨h1, h2⟩
  · simp [resolutionGroup, get_resolution, optFlag, h, hne]
  · simp [resolutionGroup, get_resolution, optFlag, h1, h2]

/-- The frame-rate group is empty for the keep-original sentinel and for
the custom sentinel with an empty free-text value. -/
theorem fpsGroup_eq_nil {p : Params}
    (hsel : p.fps = t_original_fps ∨ (p.fps = t_custom_fps ∧ p.custom_fps = "")) :
    fpsGroup p = [] := by
  have hne : t_original_fps ≠ t_custom_fps := by decide
  rcases hsel with h | ⟨h1, h2⟩
  · simp [fpsGroup, get_fps, optFlag, h, hne]
  · simp [fpsGroup, get_fps, optFlag, h1, h2]

/-- The sample-rate group is empty for the empty (keep-original) selection
and for the custom sentinel with an empty free-text value. -/
theorem sampleRateGroup_eq_nil {p : Params}
    (hsel : p.sample_rate = "" ∨
      (p.sample_rate = t_custom_sample_rate ∧ p.custom_sample_rate = "")) :
    sampleRateGroup p = [] := by
  have hne : ("" : String) ≠ t_custom_sample_rate := by decide
  rcases hsel with h | ⟨h1, h2⟩
  · simp [sampleRateGroup, get_sample_rate, optFlag, h, hne]
  · simp [sampleRateGroup, get_sample_rate, optFlag, h1, h2]

/-- The audio-bitrate group is empty for the empty (keep-original)
selection and for the custom sentinel with an empty free-text value. -/
theorem bitrateGroup_eq_nil {p : Params}
    (hsel : p.bitrate = "" ∨
      (p.bitrate = t_custom_bitrate ∧ p.custom_bitrate = "")) :
    bitrateGroup p = [] := by
  have hne : ("" : String) ≠ t_custom_bitrate := by decide
  rcases hsel with h | ⟨h1, h2⟩
  · simp [bitrateGroup, get_bitrate, optFlag, h, hne]
  · simp [bitrateGroup, get_bitrate, optFlag, h1, h2]

/-! ### Soundness of the V0.2 encoder pattern -/

/-- A position passing `tokenStartsAt` is non-empty. -/
theorem tokenStartsAt_ne_nil {enc b : List Char}
    (h : tokenStartsAt enc b = true) : b ≠ [] := by
  intro hb
  subst hb
  simp [tokenStartsAt] at h

/-- The scan succeeds anywhere a whitespace character is directly followed
by a `tokenStartsAt` position. -/
theorem tokAux_append {enc : List Char} {d : Char} {b : List Char}
    (hd : pyIsSpace d = true) (hb : tokenStartsAt enc b = true) :
    ∀ (xs : List Char) (prev : Char), tokAux enc prev (xs ++ d :: b) = true := by
  intro xs
  induction xs with
  | nil =>
    intro prev
    obtain ⟨c, rest, rfl⟩ : ∃ c rest, b = c :: rest := by
      cases b with
      | nil => exact absurd rfl (tokenStartsAt_ne_nil hb)
      | cons c rest => exact ⟨c, rest, rfl⟩
    simp [tokAux, hd, hb]
  | cons x xs ih =>
    intro prev
    simp [tokAux, ih x]

/-- Assembling `tokenOccurs` from an explicit split: some whitespace
character directly precedes a `tokenStartsAt` position. -/
theorem tokenOccurs_of_parts (enc : List Char) (u : List Char) {d : Char}
    {b : List Char} (hd : pyIsSpace d = true) (hb : tokenStartsAt enc b = true) :
    tokenOccurs enc (u ++ d :: b) = true := by
  cases u with
  | nil =>
    obtain ⟨c, rest, rfl⟩ : ∃ c rest, b = c :: rest := by
      cases b with
      | nil => exact absurd rfl (tokenStartsAt_ne_nil hb)
      | cons c rest => exact ⟨c, rest, rfl⟩
    simp [tokenOccurs, tokAux, hd, hb]
  | cons x xs =>
    show tokAux enc x (xs ++ d :: b) = true
    exact tokAux_append hd hb xs x

/-- The scan only grows more successful under any non-empty extension on
the left. -/
theorem tokAux_append_left {enc t : List Char} (h : tokenOccurs enc t = true) :
    ∀ (a : List Char) (prev : Char), tokAux enc prev (a ++ t) = true := by
  intro a
  induction a with
  | nil =>
    intro prev
    cases t with
    | nil => simp [tokenOccurs] at h
    | cons c rest =>
      have hc : tokAux enc c rest = true := h
      simp [tokAux, hc]
  | cons x xs ih =>
    intro prev
    simp [tokAux, ih x]

/-- Whole-token occurrence is stable under prepending. -/
theorem tokenOccurs_append_left {enc t : List Char} (a : List Char)
    (h : tokenOccurs enc t = true) : tokenOccurs enc (a ++ t) = true := by
  cases a with
  | nil => simpa using h
  | cons x xs =>
    show tokAux enc x (xs ++ t) = true
    exact tokAux_append_left h xs x

/-- A successful anchored match decomposes the text as leading whitespace,
the V token, separating whitespace, and a `tokenStartsAt` position. -/
theorem matchAtV02_sound {enc s : List Char} (h : matchAtV02 enc s = true) :
    ∃ (u : List Char) (d : Char) (b : List Char),
      s = u ++ d :: b ∧ pyIsSpace d = true ∧ tokenStartsAt enc b = true := by
  unfold matchAtV02 at h
  cases hds : s.dropWhile pyIsSpace with
  | nil => rw [hds] at h; simp at h
  | cons c rest =>
    rw [hds] at h
    simp only [Bool.and_eq_true, decide_eq_true_eq, Bool.not_eq_true'] at h
    obtain ⟨hc, hsp, htok⟩ := h
    set tw := s.takeWhile pyIsSpace with htw
    set nw := rest.takeWhile (fun e => !pyIsSpace e) with hnw
    set r2 := rest.dropWhile (fun e => !pyIsSpace e) with hr2
    set sp := r2.takeWhile pyIsSpace with hsp2
    set b2 := r2.dropWhile pyIsSpace with hb2
    have hs1 : tw ++ (c :: rest) = s := by
      rw [htw, ← hds]; exact List.takeWhile_append_dropWhile _ _
    have hs2 : nw ++ r2 = rest := List.takeWhile_append_dropWhile _ _
    have hs3 : sp ++ b2 = r2 := List.takeWhile_append_dropWhile _ _
    have hspne : sp ≠ [] := by
      intro he
      rw [he] at hsp
      simp at hsp
    obtain ⟨sp', d, hspd⟩ := (List.eq_nil_or_concat sp).resolve_left hspne
    refine ⟨tw ++ c :: (nw ++ sp'), d, b2, ?_, ?_, htok⟩
    · rw [← hs1, ← hs2, ← hs3, hspd, List.concat_eq_append]
      simp [List.append_assoc]
    · have hdmem : d ∈ sp := by
        rw [hspd]
        simp [List.concat_eq_append]
      exact List.mem_takeWhile_imp hdmem

/-- Every multiline anchor position is a suffix of the text. -/
theorem lineStarts_suffix {s t : List Char} (h : t ∈ lineStarts s) :
    ∃ a, s = a ++ t := by
  induction s with
  | nil => simp [lineStarts] at h
  | cons c rest ih =>
    by_cases hc : c = '\n'
    · rw [show lineStarts (c :: rest) = rest :: lineStarts rest by
        simp [lineStarts, hc]] at h
      rcases List.mem_cons.mp h with rfl | h
      · exact ⟨[c], rfl⟩
      · obtain ⟨a, rfl⟩ := ih h
        exact ⟨c :: a, rfl⟩
    · rw [show lineStarts (c :: rest) = lineStarts rest by
        simp [lineStarts, hc]] at h
      obtain ⟨a, rfl⟩ := ih h
      exact ⟨c :: a, rfl⟩

/-! ### Claim theorems -/

/-- C1.  For every request with non-empty input and output paths, the
argument vector produced by `build_command` lists its flag groups in the
fixed order: executable name, hardware-accelerator flag, input-file flag
and path, overwrite flag, video codec flag, resolution flag, frame-rate
flag, audio codec flag, sample-rate flag, channel-count flag,
audio-bitrate flag, video filter-chain argument, audio filter-chain
argument, quality-tier flags, whitespace-split extra arguments, and
finally the output path; every group that is emitted at all appears at
exactly that position. -/
theorem claim_C1_argument_order (p : Params)
    (_hin : p.input_file ≠ "") (_hout : p.output_file ≠ "") :
    build_command p =
      ["ffmpeg"] ++ hwaccelGroup p ++ ["-i", p.input_file] ++ ["-y"] ++
      videoCodecGroup p ++ resolutionGroup p ++ fpsGroup p ++
      audioCodecGroup p ++ sampleRateGroup p ++ channelsGroup p ++
      bitrateGroup p ++ vfGroup p ++ afGroup p ++ qualityGroup p ++
      extraArgsGroup p ++ [p.output_file] :=
  build_command_decomp p

/-- Witness for C1: the example request has non-empty paths and its built
command decomposes as stated. -/
theorem claim_C1_argument_order_witness :
    exampleRequest.input_file ≠ "" ∧ exampleRequest.output_file ≠ "" ∧
    build_command exampleRequest =
      ["ffmpeg"] ++ hwaccelGroup exampleRequest ++
      ["-i", exampleRequest.input_file] ++ ["-y"] ++
      videoCodecGroup exampleRequest ++ resolutionGroup exampleRequest ++
      fpsGroup exampleRequest ++ audioCodecGroup exampleRequest ++
      sampleRateGroup exampleRequest ++ channelsGroup exampleRequest ++
      bitrateGroup exampleRequest ++ vfGroup exampleRequest ++
      afGroup exampleRequest ++ qualityGroup exampleRequest ++
      extraArgsGroup exampleRequest ++ [exampleRequest.output_file] :=
  ⟨by decide, by decide,
    claim_C1_argument_order exampleRequest (by decide) (by decide)⟩

/-- C2.  The end-to-end example: input `a.mov`, output `a.mp4`, video
codec `libx264`, resolution at the keep-original sentinel, quality tier
high, empty accelerator selection and all audio selections empty (so no
audio flags are emitted), builds exactly the stated vector. -/
theorem claim_C2_end_to_end :
    build_command exampleRequest =
      ["ffmpeg", "-i", "a.mov", "-y", "-c:v", "libx264",
       "-crf", "18", "-preset", "slow", "a.mp4"] := by
  decide

/-- C9.  The command builder is a pure function of the request (it reads
nothing else, in particular no mutable state): two calls on equal inputs
return identical argument vectors. -/
theorem claim_C9_deterministic (p q : Params) (h : p = q) :
    build_command p = build_command q := by
  rw [h]

/-- Witness for C9 at the example request. -/
theorem claim_C9_deterministic_witness :
    build_command exampleRequest = build_command exampleRequest :=
  claim_C9_deterministic exampleRequest exampleRequest rfl

/-- C3 as stated is false: the free-form extra arguments are appended
verbatim, so a request whose resolution selection is the keep-original
sentinel can still carry the token `-s` into the argument vector. -/
theorem claim_C3_counterexample :
    resolutionKeepWithExtraS.resolution = t_original_resolution ∧
    "-s" ∈ build_command resolutionKeepWithExtraS :=
  ⟨rfl, by decide⟩

/-- C3 (amended).  Provided no request field or whitespace-split extra
argument carries the flag token itself, each of the four settings omits
its flag: resolution and frame rate at their keep-original sentinels or
at the custom sentinel with empty free text, and sample rate and audio
bitrate — whose keep-original state is the empty selection, there being
no dedicated sentinel for them — at the empty selection or at the custom
sentinel with empty free text. -/
theorem claim_C3_keep_custom_omission (p : Params) :
    (avoidsToken "-s" p = true →
      (p.resolution = t_original_resolution ∨
        (p.resolution = t_custom_resolution ∧ p.custom_resolution = "")) →
      "-s" ∉ build_command p) ∧
    (avoidsToken "-r" p = true →
      (p.fps = t_original_fps ∨ (p.fps = t_custom_fps ∧ p.custom_fps = "")) →
      "-r" ∉ build_command p) ∧
    (avoidsToken "-ar" p = true →
      (p.sample_rate = "" ∨
        (p.sample_rate = t_custom_sample_rate ∧ p.custom_sample_rate = "")) →
      "-ar" ∉ build_command p) ∧
    (avoidsToken "-b:a" p = true →
      (p.bitrate = "" ∨ (p.bitrate = t_custom_bitrate ∧ p.custom_bitrate = "")) →
      "-b:a" ∉ build_command p) := by
  refine ⟨?_, ?_, ?_, ?_⟩ <;> intro ha hs hmem
  · rcases mem_build_command_flag ha (by decide) hmem with
      hfix | ⟨_, hne⟩ | ⟨heq, _⟩ | ⟨heq, _⟩ | ⟨heq, _⟩ | ⟨heq, _⟩
    · exact absurd hfix (by decide)
    · exact hne (resolutionGroup_eq_nil hs)
    · exact absurd heq (by decide)
    · exact absurd heq (by decide)
    · exact absurd heq (by decide)
    · exact absurd heq (by decide)
  · rcases mem_build_command_flag ha (by decide) hmem with
      hfix | ⟨heq, _⟩ | ⟨_, hne⟩ | ⟨heq, _⟩ | ⟨heq, _⟩ | ⟨heq, _⟩
    · exact absurd hfix (by decide)
    · exact absurd heq (by decide)
    · exact hne (fpsGroup_eq_nil hs)
    · exact absurd heq (by decide)
    · exact absurd heq (by decide)
    · exact absurd heq (by decide)
  · rcases mem_build_command_flag ha (by decide) hmem with
      hfix | ⟨heq, _⟩ | ⟨heq, _⟩ | ⟨_, hne⟩ | ⟨heq, _⟩ | ⟨heq, _⟩
    · exact absurd hfix (by decide)
    · exact absurd heq (by decide)
    · exact absurd heq (by decide)
    · exact hne (sampleRateGroup_eq_nil hs)
    · exact absurd heq (by decide)
    · exact absurd heq (by decide)
  · rcases mem_build_command_flag ha (by decide) hmem with
      hfix | ⟨heq, _⟩ | ⟨heq, _⟩ | ⟨heq, _⟩ | ⟨_, hne⟩ | ⟨heq, _⟩
    · exact absurd hfix (by decide)
    · exact absurd heq (by decide)
    · exact absurd heq (by decide)
    · exact absurd heq (by decide)
    · exact hne (bitrateGroup_eq_nil hs)
    · exact absurd heq (by decide)

/-- Witness for C3 (amended): on a request with every setting at its keep
state, none of the four flags is present. -/
theorem claim_C3_keep_custom_omission_witness :
    "-s" ∉ build_command allKeepRequest ∧
    "-r" ∉ build_command allKeepRequest ∧
    "-ar" ∉ build_command allKeepRequest ∧
    "-b:a" ∉ build_command allKeepRequest :=
  ⟨(claim_C3_keep_custom_omission allKeepRequest).1 (by decide) (by decide),
   (claim_C3_keep_custom_omission allKeepRequest).2.1 (by decide) (by decide),
   (claim_C3_keep_custom_omission allKeepRequest).2.2.1 (by decide) (by decide),
   (claim_C3_keep_custom_omission allKeepRequest).2.2.2 (by decide) (by decide)⟩

/-- C8 as stated is false: with the passthrough codec selected, the extra
arguments can still carry the token `-c:v` into the argument vector. -/
theorem claim_C8_counterexample :
    copyCodecWithExtraCv.video_codec = "copy" ∧
    "-c:v" ∈ build_command copyCodecWithExtraCv :=
  ⟨rfl, by decide⟩

/-- C8 (amended).  For the passthrough sentinel the builder emits no
video-codec group, and — provided no request field or extra argument
carries the token itself — `-c:v` is then absent from the whole vector;
for any other non-empty selection the flag is present with that codec as
its value. -/
theorem claim_C8_copy_video_codec (p : Params) :
    (p.video_codec = "copy" →
      videoCodecGroup p = [] ∧
      (avoidsToken "-c:v" p = true → "-c:v" ∉ build_command p)) ∧
    (p.video_codec ≠ "" → p.video_codec ≠ "copy" →
      ∃ u v, build_command p = u ++ ["-c:v", p.video_codec] ++ v) := by
  constructor
  · intro hcopy
    have hnil : videoCodecGroup p = [] := by
      simp [videoCodecGroup, hcopy]
    refine ⟨hnil, ?_⟩
    intro ha hmem
    rcases mem_build_command_flag ha (by decide) hmem with
      hfix | ⟨heq, _⟩ | ⟨heq, _⟩ | ⟨heq, _⟩ | ⟨heq, _⟩ | ⟨_, hne⟩
    · exact absurd hfix (by decide)
    · exact absurd heq (by decide)
    · exact absurd heq (by decide)
    · exact absurd heq (by decide)
    · exact absurd heq (by decide)
    · exact hne hnil
  · intro h1 h2
    refine ⟨["ffmpeg"] ++ hwaccelGroup p ++ ["-i", p.input_file] ++ ["-y"],
      resolutionGroup p ++ fpsGroup p ++ audioCodecGroup p ++ sampleRateGroup p ++
        channelsGroup p ++ bitrateGroup p ++ vfGroup p ++ afGroup p ++
        qualityGroup p ++ extraArgsGroup p ++ [p.output_file], ?_⟩
    rw [build_command_decomp]
    have hg : videoCodecGroup p = ["-c:v", p.video_codec] := by
      simp [videoCodecGroup, h1, h2]
    rw [hg]
    simp [List.append_assoc]

/-- Witness for C8 (amended): the passthrough request carries no `-c:v`,
while the example request carries the flag with its codec. -/
theorem claim_C8_copy_video_codec_witness :
    videoCodecGroup passthroughRequest = [] ∧
    "-c:v" ∉ build_command passthroughRequest ∧
    (∃ u v, build_command exampleRequest = u ++ ["-c:v", "libx264"] ++ v) :=
  ⟨((claim_C8_copy_video_codec passthroughRequest).1 rfl).1,
   ((claim_C8_copy_video_codec passthroughRequest).1 rfl).2 (by decide),
   (claim_C8_copy_video_codec exampleRequest).2 (by decide) (by decide)⟩

/-- C10.  A non-empty audio codec selection — the passthrough sentinel
`copy` included — always yields the `-c:a` flag with that selection as its
value, and the sample-rate and audio-bitrate groups do not depend on the
audio codec selection at all. -/
theorem claim_C10_audio_not_suppressed (p : Params) (h : p.audio_codec ≠ "") :
    (∃ u v, build_command p = u ++ ["-c:a", p.audio_codec] ++ v) ∧
    sampleRateGroup { p with audio_codec := "copy" } = sampleRateGroup p ∧
    bitrateGroup { p with audio_codec := "copy" } = bitrateGroup p := by
  refine ⟨⟨["ffmpeg"] ++ hwaccelGroup p ++ ["-i", p.input_file] ++ ["-y"] ++
      videoCodecGroup p ++ resolutionGroup p ++ fpsGroup p,
    sampleRateGroup p ++ channelsGroup p ++ bitrateGroup p ++ vfGroup p ++
      afGroup p ++ qualityGroup p ++ extraArgsGroup p ++ [p.output_file],
    ?_⟩, rfl, rfl⟩
  rw [build_command_decomp]
  have hg : audioCodecGroup p = ["-c:a", p.audio_codec] := by
    simp [audioCodecGroup, h]
  rw [hg]
  simp [List.append_assoc]

/-- Witness for C10 at a request with passthrough audio codec: the `-c:a`
flag is present with value `copy` and the audio groups are unaffected. -/
theorem claim_C10_audio_not_suppressed_witness :
    (∃ u v, build_command copyAudioRequest = u ++ ["-c:a", "copy"] ++ v) ∧
    sampleRateGroup { copyAudioRequest with audio_codec := "copy" } =
      sampleRateGroup copyAudioRequest ∧
    bitrateGroup { copyAudioRequest with audio_codec := "copy" } =
      bitrateGroup copyAudioRequest :=
  claim_C10_audio_not_suppressed copyAudioRequest (by decide)

/-- C4 as stated is false: on the size sequence `[100, 150, 150, 150]` the
poll loop has not reached the success state at the third sample, nor even
after all four. -/
theorem claim_C4_counterexample :
    pollRun (.checking 0) [100, 150, 150] ≠ PollState.succeeded ∧
    pollRun (.checking 0) [100, 150, 150, 150] ≠ PollState.succeeded := by
  decide

/-- C4 (amended).  On the size sequence `[100, 150, 150, 150, 150]` the
job reaches the success state exactly at the fifth sample: the change at
the second sample resets the counter, the third sample only re-baselines
without comparing, and the two consecutive equal verification polls
(fourth and fifth samples) then declare success; any size change during
verification resets the stability counter and returns to re-baselining. -/
theorem claim_C4_finalizing_fifth_sample :
    pollRun (.checking 0) [100, 150, 150, 150, 150] = PollState.succeeded ∧
    (∀ k < 5, pollRun (.checking 0)
      (List.take k [100, 150, 150, 150, 150]) ≠ PollState.succeeded) ∧
    (∀ c prev size : ℕ, size ≠ prev →
      pollStep (.verifying c prev) size = .checking 0) := by
  refine ⟨by decide, by decide, ?_⟩
  intro c prev size hne
  simp [pollStep, hne]

/-- Witness for C4 (amended): the reset transition at a concrete changed
size. -/
theorem claim_C4_finalizing_fifth_sample_witness :
    (200 : ℕ) ≠ 150 ∧ pollStep (.verifying 1 150) 200 = .checking 0 :=
  ⟨by decide, claim_C4_finalizing_fifth_sample.2.2 1 150 200 (by decide)⟩

/-- C5.  Detection is a total function of the invocation outcome (so no
behaviour of the executable can make it raise), and whenever the
executable cannot be invoked, times out, or exits abnormally, the returned
profile still carries all six accelerator entries and all ten encoder
entries, every one marked unsupported. -/
theorem claim_C5_detection_soft_fail (r : ExecResult) (h : execFailed r = true) :
    (detect_hardware_acceleration r).map Prod.fst =
      ["cuda", "qsv", "vaapi", "d3d11va", "videotoolbox", "amf"] ∧
    (detect_hardware_encoders r).map Prod.fst =
      ["h264_nvenc", "hevc_nvenc", "h264_qsv", "hevc_qsv", "h264_amf", "hevc_amf",
       "h264_vaapi", "hevc_vaapi", "h264_videotoolbox", "hevc_videotoolbox"] ∧
    ((detect_hardware_acceleration r).all fun e => !e.2.supported) = true ∧
    ((detect_hardware_encoders r).all fun e => !e.2.supported) = true := by
  cases r with
  | failure => exact ⟨by decide, by decide, by decide, by decide⟩
  | finished rc out =>
    have hrc : ¬rc = 0 := by simpa [execFailed] using h
    refine ⟨?_, ?_, ?_, ?_⟩ <;>
      simp [detect_hardware_acceleration, detect_hardware_encoders, hrc,
        markAllUnsupported, hwaccels_to_check, encoder_mapping]

/-- Witness for C5 at the unreachable-executable outcome. -/
theorem claim_C5_detection_soft_fail_witness :
    execFailed .failure = true ∧
    ((detect_hardware_acceleration .failure).map Prod.fst =
      ["cuda", "qsv", "vaapi", "d3d11va", "videotoolbox", "amf"] ∧
    (detect_hardware_encoders .failure).map Prod.fst =
      ["h264_nvenc", "hevc_nvenc", "h264_qsv", "hevc_qsv", "h264_amf", "hevc_amf",
       "h264_vaapi", "hevc_vaapi", "h264_videotoolbox", "hevc_videotoolbox"] ∧
    ((detect_hardware_acceleration .failure).all fun e => !e.2.supported) = true ∧
    ((detect_hardware_encoders .failure).all fun e => !e.2.supported) = true) :=
  ⟨rfl, claim_C5_detection_soft_fail .failure rfl⟩

/-- C6 as stated is false for the `ffmpeggui.py` variant: its pattern has
no boundary after the identifier, so a listing whose only identifier is
`h264_qsvx` marks `h264_qsv` supported even though `h264_qsv` never occurs
as a whitespace-delimited token (the V0.2 pattern rejects it). -/
theorem claim_C6_counterexample :
    (detect_hardware_encoders_main (.finished 0 qsvPrefixListing)).lookup "h264_qsv" =
      some ⟨"Intel H.264", true⟩ ∧
    tokenOccurs ("h264_qsv").data qsvPrefixListing.data = false ∧
    encoderSearchV02 "h264_qsv" qsvPrefixListing = false := by
  decide

/-- C6 (amended).  The V0.2 detector marks an encoder supported only when
the identifier occurs in the listing as a whole token, delimited by
whitespace on both sides (and preceded there by a line-anchored token
beginning with `V`); in particular a listing in which the probed
identifier occurs only as a proper prefix or substring of a distinct
identifier never marks it supported.  The `ffmpeggui.py` variant lacks the
trailing boundary and does suffer such prefix false positives. -/
theorem claim_C6_whole_token (enc out : String)
    (h : encoderSearchV02 enc out = true) :
    tokenOccurs enc.data out.data = true := by
  unfold encoderSearchV02 searchMulti at h
  simp only [Bool.or_eq_true, List.any_eq_true] at h
  rcases h with h | ⟨t, ht, hm⟩
  · obtain ⟨u, d, b, heq, hd, hb⟩ := matchAtV02_sound h
    rw [heq]
    exact tokenOccurs_of_parts enc.data u hd hb
  · obtain ⟨u, d, b, heq, hd, hb⟩ := matchAtV02_sound hm
    obtain ⟨a, ha⟩ := lineStarts_suffix ht
    rw [ha, heq]
    exact tokenOccurs_append_left a (tokenOccurs_of_parts enc.data u hd hb)

/-- Witness for C6 (amended) on a well-formed listing line. -/
theorem claim_C6_whole_token_witness :
    encoderSearchV02 "h264_qsv" " V..... h264_qsv  desc\n" = true ∧
    tokenOccurs ("h264_qsv").data (" V..... h264_qsv  desc\n").data = true :=
  ⟨by decide, claim_C6_whole_token "h264_qsv" " V..... h264_qsv  desc\n" (by decide)⟩

/-- C7.  Whenever the first 10 bytes of the input are not the container
signature, the fallback decryptor fails with the decryption error; since
its only write happens after all validation, no decrypted output is
produced (the `.ok` payload is the only write the embedding models). -/
theorem claim_C7_bad_signature (data : List ℕ)
    (h : data.take 10 ≠ ncmSignature) :
    decrypt_ncm_fallback data = .error "NCM文件解密失败:\n不是有效的NCM文件" := by
  unfold decrypt_ncm_fallback decryptCore
  rw [if_pos (Or.inr h)]
  rfl

/-- Witness for C7 on a three-byte file. -/
theorem claim_C7_bad_signature_witness :
    ([1, 2, 3] : List ℕ).take 10 ≠ ncmSignature ∧
    decrypt_ncm_fallback [1, 2, 3] = .error "NCM文件解密失败:\n不是有效的NCM文件" :=
  ⟨by decide, claim_C7_bad_signature [1, 2, 3] (by decide)⟩

end FfmpegGui
